import Mathlib

/-!
Shallow embedding of the digihesabyar reconciliation engine
(`apps/digihesabyar/back/services.py` and `apps/digihesabyar/views.py`)
together with theorems about it.

Conventions of the embedding:
* Python `int` is `Int`; Python `//` (floor division) is `Int.fdiv`.
* Excel cell values are modelled by the `Cell` inductive: `null` is Python
  `None`, `num` an integer, `real` a finite float (as a rational, rounded
  with Python's round-half-to-even), `nan` a float NaN, `text` a string.
* Strings are processed at the `List Char` level so that the Python string
  pipeline (replace, translate, strip, regex-substitute) is an explicit,
  inductively provable sequence of list operations.
* Python's `re.sub(r"[^\d]", "", s)` keeps Unicode decimal digits.  After
  the Persian/Arabic transliteration every digit the workbook vocabulary
  produces is ASCII, so the embedding keeps ASCII digits (`Char.isDigit`).
* Django ORM state is explicit: a ledger run is a fold over row events, the
  stored rows of an invoice are a plain list, and `transaction.atomic`
  around delete-all-then-insert is embedded as all-or-nothing replacement.
-/

namespace DigiHesabyar

/-- Value of a single spreadsheet cell as handed to `_normalize_number`. -/
inductive Cell where
  | null : Cell
  | num : Int → Cell
  | real : Rat → Cell
  | nan : Cell
  | text : String → Cell
deriving DecidableEq, Repr

/-- Python `round` on a finite float: round half to even (banker's rounding). -/
def pyRound (q : Rat) : Int :=
  let f : Int := ⌊q⌋
  let frac : Rat := q - (f : Rat)
  if frac < 1/2 then f
  else if 1/2 < frac then f + 1
  else if 2 ∣ f then f else f + 1

/-- Transliteration of Persian (U+06F0..U+06F9) and Arabic-Indic
(U+0660..U+0669) digits to ASCII, mirroring the two `str.translate` calls
built from `PERSIAN_DIGITS` and `ARABIC_DIGITS` in `services.py`. -/
def translitChar (c : Char) : Char :=
  if c = '۰' then '0' else if c = '۱' then '1' else if c = '۲' then '2'
  else if c = '۳' then '3' else if c = '۴' then '4' else if c = '۵' then '5'
  else if c = '۶' then '6' else if c = '۷' then '7' else if c = '۸' then '8'
  else if c = '۹' then '9'
  else if c = '٠' then '0' else if c = '١' then '1' else if c = '٢' then '2'
  else if c = '٣' then '3' else if c = '٤' then '4' else if c = '٥' then '5'
  else if c = '٦' then '6' else if c = '٧' then '7' else if c = '٨' then '8'
  else if c = '٩' then '9'
  else c

/-- Python `str.strip()` on the character list: whitespace removed from both
ends. -/
def pyStrip (l : List Char) : List Char :=
  ((l.dropWhile Char.isWhitespace).reverse.dropWhile Char.isWhitespace).reverse

/-- Value of a non-empty all-digit character list; `none` as soon as a
non-digit shows up or the list is empty.  Models the digit-string core of
Python's `int(...)` (the only shapes reaching it here are an optional sign
followed by digits). -/
def digitsVal (l : List Char) : Option Nat :=
  match l with
  | [] => none
  | _ => l.foldl
      (fun acc c => acc.bind
        (fun n => if c.isDigit then some (n * 10 + (c.toNat - '0'.toNat)) else none))
      (some 0)

/-- Python `int(s)` for the strings produced by `_normalize_number`:
an optional leading sign followed by digits; `none` models `ValueError`. -/
def pyInt (l : List Char) : Option Int :=
  match l with
  | '-' :: rest => (digitsVal rest).map (fun n => -(n : Int))
  | '+' :: rest => (digitsVal rest).map (fun n => (n : Int))
  | _ => (digitsVal l).map (fun n => (n : Int))

/-- String branch of `_normalize_number` (`services.py` lines 39-61):
drop thousands separators, transliterate Persian/Arabic digits, strip,
remember a leading minus, drop every non-digit, reattach the sign when any
digit survived, and parse — any failure or empty result yields 0. -/
def normalizeChars (l : List Char) : Int :=
  let l1 := l.filter (fun c => !(c == ',' || c == '٬'))
  let l2 := l1.map translitChar
  let l3 := pyStrip l2
  let isNeg : Bool := match l3 with | '-' :: _ => true | _ => false
  let ds := l3.filter Char.isDigit
  let s4 := if isNeg && !ds.isEmpty then '-' :: ds else ds
  if s4 = [] ∨ s4 = ['-'] ∨ s4 = ['+'] then 0
  else (pyInt s4).getD 0

/-- Embedding of `_normalize_number` (`services.py` lines 25-61); the public
`normalize_number` is a plain wrapper around it, so the same definition
serves for both. -/
def normalize_number : Cell → Int
  | .null => 0
  | .num i => i
  | .real q => pyRound q
  | .nan => 0
  | .text s => normalizeChars s.toList

/-- Row of the `PricingTier` table (`models.py`): `min_rows` and an optional
`max_rows` are positive-integer fields, `price_per_invoice` a non-negative
big-integer field. -/
structure PricingTier where
  min_rows : Nat
  max_rows : Option Nat
  price_per_invoice : Nat
deriving DecidableEq, Repr

/-- Scan of the tier table in ascending `min_rows` order, mirroring the
`for tier in tiers` loop of `calculate_price_for_row_count`
(`services.py` lines 136-144). -/
def scanTiers (row_count : Int) : List PricingTier → Int
  | [] => 0
  | t :: ts =>
    match t.max_rows with
    | none =>
      if (t.min_rows : Int) ≤ row_count then (t.price_per_invoice : Int)
      else scanTiers row_count ts
    | some mx =>
      if (t.min_rows : Int) ≤ row_count ∧ row_count ≤ (mx : Int) then
        (t.price_per_invoice : Int)
      else scanTiers row_count ts

/-- Embedding of `calculate_price_for_row_count` (`services.py` lines
126-144).  The database query hands the function the tier table ordered by
`min_rows`; here the (ordered) table is an explicit argument. -/
def calculate_price_for_row_count (tiers : List PricingTier) (row_count : Int) : Int :=
  if row_count ≤ 0 then 0 else scanTiers row_count tiers

/-- Membership of a row count in one tier's range. -/
def inTier (n : Nat) (t : PricingTier) : Bool :=
  t.min_rows ≤ n && (match t.max_rows with | none => true | some mx => n ≤ mx)

/-- Contiguous coverage of `[s, ∞)` by a tier table: each bounded tier is
followed immediately by a tier starting at `max_rows + 1`, and the table
ends with an unbounded tier. -/
inductive Covers : Nat → List PricingTier → Prop
  | single (s : Nat) (f : Nat) : Covers s [⟨s, none, f⟩]
  | step (s mx : Nat) (f : Nat) (ts : List PricingTier) :
      s ≤ mx → Covers (mx + 1) ts → Covers s (⟨s, some mx, f⟩ :: ts)

/-- Sale channel of a parsed row (`sale_type` in the source: "cash" or
"credit"). -/
inductive SaleType where
  | cash : SaleType
  | credit : SaleType
deriving DecidableEq, Repr

/-- Cost categories handled by `_apply_cost_sheet` (its `kind` argument). -/
inductive CostKind where
  | commission : CostKind
  | shipping : CostKind
  | processing : CostKind
  | platform_dev : CostKind
deriving DecidableEq, Repr

/-- Embedding of the `ParsedRow` dataclass of `services.py`: one accumulated
ledger line keyed by (sale_type, order_id, dkpc). -/
structure ParsedRow where
  sale_type : SaleType
  order_id : String
  dkpc : String
  title : String
  sale_amount : Int := 0
  is_return : Bool := false
  commission_amount : Int := 0
  shipping_fee : Int := 0
  processing_fee : Int := 0
  platform_dev_revenue : Int := 0
deriving DecidableEq, Repr

/-- Identity of a ledger line: the `rows_map` dictionary key
`(sale_type, str(order_id), str(dkpc))`. -/
abbrev Key := SaleType × String × String

/-- Dictionary key of a parsed row. -/
def ParsedRow.key (r : ParsedRow) : Key :=
  (r.sale_type, r.order_id, r.dkpc)

/-- Lookup in the ledger state; `rows_map.get(key)` over the row list (keys
are unique by construction, so first match is the match). -/
def findRow (rows : List ParsedRow) (k : Key) : Option ParsedRow :=
  rows.find? (fun r => r.key == k)

/-- In-place mutation of the row stored under `k`: the Python code mutates
the shared `ParsedRow` object, here the row with that key is rewritten. -/
def updateRow (rows : List ParsedRow) (k : Key) (f : ParsedRow → ParsedRow) :
    List ParsedRow :=
  rows.map (fun r => if r.key = k then f r else r)

/-- Data cells of one spreadsheet row after column resolution: the order-id
cell, the variant-code cell (each `none` when the cell is `None`, otherwise
its stringified value), the title cell, and the raw amount cell.  Cost
sheets have no title column; the slot is ignored there. -/
structure RowData where
  order_id : Option String
  dkpc : Option String
  title : Option String
  amount : Cell
deriving DecidableEq, Repr

/-- One data row of a sales or return sheet, mirroring the loop body of
`_read_sales_sheet` (`services.py` lines 222-253): rows missing the order
id or the variant code are skipped; on a return sheet the absolute
normalized amount is subtracted, otherwise the normalized amount is added;
`get_or_create` fills title and `is_return` only when the line is new. -/
def processSalesRow (st : SaleType) (is_return_sheet : Bool)
    (rows : List ParsedRow) (d : RowData) : List ParsedRow :=
  match d.order_id, d.dkpc with
  | some oid, some dk =>
    let amount := normalize_number d.amount
    let k : Key := (st, oid, dk)
    match findRow rows k with
    | some _ =>
      updateRow rows k (fun p =>
        if is_return_sheet then { p with sale_amount := p.sale_amount - |amount| }
        else { p with sale_amount := p.sale_amount + amount })
    | none =>
      rows ++ [{ sale_type := st, order_id := oid, dkpc := dk,
                 title := d.title.getD "",
                 is_return := is_return_sheet,
                 sale_amount := if is_return_sheet then -|amount| else amount }]
  | _, _ => rows

/-- Accumulation of one signed cost contribution into its field, mirroring
the `kind` dispatch of `_apply_cost_sheet` (`services.py` lines 337-344). -/
def addCost (kind : CostKind) (amount : Int) (p : ParsedRow) : ParsedRow :=
  match kind with
  | .commission => { p with commission_amount := p.commission_amount + amount }
  | .shipping => { p with shipping_fee := p.shipping_fee + amount }
  | .processing => { p with processing_fee := p.processing_fee + amount }
  | .platform_dev => { p with platform_dev_revenue := p.platform_dev_revenue + amount }

/-- One data row of a cost sheet, mirroring the loop body of
`_apply_cost_sheet` (`services.py` lines 312-346): reversal sheets negate
the normalized amount; an unseen identity gets a fresh non-return line with
zero sale amount and empty title. -/
def processCostRow (st : SaleType) (kind : CostKind) (is_return_sheet : Bool)
    (rows : List ParsedRow) (d : RowData) : List ParsedRow :=
  match d.order_id, d.dkpc with
  | some oid, some dk =>
    let amount := normalize_number d.amount * (if is_return_sheet then -1 else 1)
    let k : Key := (st, oid, dk)
    match findRow rows k with
    | some _ => updateRow rows k (addCost kind amount)
    | none =>
      rows ++ [addCost kind amount
        { sale_type := st, order_id := oid, dkpc := dk, title := "",
          is_return := false }]
  | _, _ => rows

/-- Category of a sheet in the fixed sequence of `parse_invoice_excel`:
a sales/return sheet or a cost sheet (with its reversal flag). -/
inductive SheetKind where
  | sales (is_return_sheet : Bool) : SheetKind
  | cost (kind : CostKind) (is_return_sheet : Bool) : SheetKind
deriving DecidableEq, Repr

/-- One usable sheet of the workbook: its channel, its category, and its
data rows (in sheet order).  A sheet that is absent, or skipped because its
header or required columns cannot be resolved, contributes no rows. -/
structure Sheet where
  stype : SaleType
  kind : SheetKind
  rows : List RowData
deriving DecidableEq, Repr

/-- Processing of a single data row with its sheet's parameters. -/
structure Event where
  stype : SaleType
  kind : SheetKind
  data : RowData
deriving DecidableEq, Repr

/-- Effect of one row event on the ledger state. -/
def applyEvent (rows : List ParsedRow) (e : Event) : List ParsedRow :=
  match e.kind with
  | .sales ret => processSalesRow e.stype ret rows e.data
  | .cost ck ret => processCostRow e.stype ck ret rows e.data

/-- Ledger identity an event contributes to, when its row carries both
identity cells; `none` for the skipped rows. -/
def Event.key? (e : Event) : Option Key :=
  match e.data.order_id, e.data.dkpc with
  | some oid, some dk => some (e.stype, oid, dk)
  | _, _ => none

/-- Signed amount an event folds into the ledger: the normalized amount,
negated on a sales-return sheet (via the absolute value) and on a cost
reversal sheet. -/
def Event.amountDelta (e : Event) : Int :=
  match e.kind with
  | .sales ret =>
    if ret then -|normalize_number e.data.amount| else normalize_number e.data.amount
  | .cost _ ret => normalize_number e.data.amount * (if ret then -1 else 1)

/-- Tuple of the five accumulated numeric fields of a parsed row, in the
order (sale, commission, shipping, processing, platform_dev). -/
def numTuple (p : ParsedRow) : Int × Int × Int × Int × Int :=
  (p.sale_amount, p.commission_amount, p.shipping_fee, p.processing_fee,
   p.platform_dev_revenue)

/-- Numeric fields of the line stored under `k`; all zero when no line with
that identity exists. -/
def numAt (rows : List ParsedRow) (k : Key) : Int × Int × Int × Int × Int :=
  match findRow rows k with
  | some p => numTuple p
  | none => (0, 0, 0, 0, 0)

/-- Contribution of one row event to the numeric fields of identity `k`. -/
def Event.contrib (e : Event) (k : Key) : Int × Int × Int × Int × Int :=
  if e.key? = some k then
    match e.kind with
    | .sales _ => (e.amountDelta, 0, 0, 0, 0)
    | .cost ck _ =>
      match ck with
      | .commission => (0, e.amountDelta, 0, 0, 0)
      | .shipping => (0, 0, e.amountDelta, 0, 0)
      | .processing => (0, 0, 0, e.amountDelta, 0)
      | .platform_dev => (0, 0, 0, 0, e.amountDelta)
  else (0, 0, 0, 0, 0)

/-- Row events of one sheet, in sheet order. -/
def Sheet.events (sh : Sheet) : List Event :=
  sh.rows.map (fun d => ⟨sh.stype, sh.kind, d⟩)

/-- Fold of a list of row events over the ledger state. -/
def processEvents (evs : List Event) : List ParsedRow :=
  evs.foldl applyEvent []

/-- Embedding of the merge phase of `parse_invoice_excel` (`services.py`
lines 150-417): the sheets are visited in sequence and every data row of
every visited sheet is folded into the shared ledger state, which starts
empty.  Folding sheet after sheet equals folding the concatenation of
their row events. -/
def parse_invoice_excel (sheets : List Sheet) : List ParsedRow :=
  processEvents (sheets.flatMap Sheet.events)

/-- Stored `InvoiceRow` record (`models.py`): the persisted ledger line.
`purchase_price` and `profit` keep their model defaults (0) at creation
time and are touched later by the price views and `recalc_profit`. -/
structure InvoiceRow where
  sale_type : SaleType
  order_id : String
  dkpc : String
  title : String
  sale_amount : Int
  purchase_price : Int := 0
  commission_amount : Int
  shipping_fee : Int
  processing_fee : Int
  platform_dev_revenue : Int
  tax_amount : Int
  profit : Int := 0
  is_return : Bool
deriving DecidableEq, Repr

/-- Finalization of one accumulated line into its stored record, mirroring
the per-row body of `process_invoice_file` (`services.py` lines 456-494):
a line is stored as a return when its sticky flag is set or its net sale
amount is ≤ 0, and then every monetary field is zeroed; otherwise every
monetary field is clamped at 0 and the tax is `(commission + processing) // 10`. -/
def finalizeRow (pr : ParsedRow) : InvoiceRow :=
  if pr.is_return || pr.sale_amount ≤ 0 then
    { sale_type := pr.sale_type, order_id := pr.order_id, dkpc := pr.dkpc,
      title := pr.title, sale_amount := 0, commission_amount := 0,
      shipping_fee := 0, processing_fee := 0, platform_dev_revenue := 0,
      tax_amount := 0, is_return := true }
  else
    let commission_amount := max 0 pr.commission_amount
    let processing_fee := max 0 pr.processing_fee
    { sale_type := pr.sale_type, order_id := pr.order_id, dkpc := pr.dkpc,
      title := pr.title, sale_amount := max 0 pr.sale_amount,
      commission_amount := commission_amount,
      shipping_fee := max 0 pr.shipping_fee,
      processing_fee := processing_fee,
      platform_dev_revenue := max 0 pr.platform_dev_revenue,
      tax_amount := Int.fdiv (commission_amount + processing_fee) 10,
      is_return := false }

/-- Stored line set produced by a successful run: the delete-all-then-insert
loop of `process_invoice_file` creates one `InvoiceRow` per parsed row, in
order. -/
def process_invoice_rows (prs : List ParsedRow) : List InvoiceRow :=
  prs.map finalizeRow

/-- Per-row body of `recalc_profit` (`views.py` lines 49-79): returns and
rows without a positive purchase price get profit 0 and tax 0; otherwise
tax is recomputed as `(commission + processing) // 10` and profit as sale
minus total cost, where the credit channel also bears the platform
development revenue. -/
def recalcRow (row : InvoiceRow) : InvoiceRow :=
  if row.is_return || row.purchase_price ≤ 0 then
    { row with profit := 0, tax_amount := 0 }
  else
    let tax := Int.fdiv (row.commission_amount + row.processing_fee) 10
    let total_cost :=
      if row.sale_type = SaleType.cash then
        row.purchase_price + row.commission_amount + row.shipping_fee
          + row.processing_fee + tax
      else
        row.purchase_price + row.platform_dev_revenue + row.commission_amount
          + row.shipping_fee + row.processing_fee + tax
    { row with tax_amount := tax, profit := row.sale_amount - total_cost }

/-- Embedding of `recalc_profit` (`views.py` lines 36-82): every stored row
of the invoice is recomputed and bulk-updated. -/
def recalc_profit (rows : List InvoiceRow) : List InvoiceRow :=
  rows.map recalcRow

/-- Lifecycle states of `InvoiceFile.status`. -/
inductive Status where
  | pending : Status
  | processing : Status
  | done : Status
  | error : Status
deriving DecidableEq, Repr

/-- Persistent state of one invoice as touched by `process_invoice_file`:
its status, error text, derived counters, and its stored ledger lines. -/
structure InvoiceState where
  status : Status
  error_message : String
  row_count : Nat
  processing_price : Int
  lines : List InvoiceRow
deriving DecidableEq, Repr

/-- Embedding of `process_invoice_file` (`services.py` lines 422-508).
The workbook read (`parse_invoice_excel` with `load_workbook`) either
raises — modelled as `Except.error` with the captured text — or returns
the parsed rows.  The delete-all-then-insert block runs inside
`transaction.atomic`, so an exception anywhere inside it — modelled by the
injected `persistFault` — rolls the line replacement back; the `except`
handler then stores the error state.  A fault-free run replaces the lines
wholesale and prices the invoice from the tier table. -/
def process_invoice_file (tiers : List PricingTier) (inv : InvoiceState)
    (parseResult : Except String (List ParsedRow))
    (persistFault : Option String) : InvoiceState :=
  let inv1 := { inv with status := Status.processing, error_message := "" }
  match parseResult with
  | .error e => { inv1 with status := Status.error, error_message := e }
  | .ok prs =>
    match persistFault with
    | some e => { inv1 with status := Status.error, error_message := e }
    | none =>
      let newLines := process_invoice_rows prs
      { inv1 with lines := newLines,
                  row_count := newLines.length,
                  processing_price :=
                    calculate_price_for_row_count tiers (newLines.length : Int),
                  status := Status.done }

/-! Helper lemmas about the ledger state. -/

theorem findRow_nil (k : Key) : findRow [] k = none := rfl

theorem findRow_cons (r : ParsedRow) (rows : List ParsedRow) (k : Key) :
    findRow (r :: rows) k = if r.key = k then some r else findRow rows k := by
  by_cases h : r.key = k
  · rw [if_pos h]
    exact List.find?_cons_of_pos _ (by simpa using h)
  · rw [if_neg h]
    exact List.find?_cons_of_neg _ (by simpa using h)

theorem findRow_key {rows : List ParsedRow} {k : Key} {p : ParsedRow}
    (h : findRow rows k = some p) : p.key = k := by
  have := List.find?_some h
  simpa using this

theorem findRow_append_left {rows : List ParsedRow} {k : Key} {p : ParsedRow}
    (h : findRow rows k = some p) (l : List ParsedRow) :
    findRow (rows ++ l) k = some p := by
  induction rows with
  | nil => simp [findRow] at h
  | cons r rs ih =>
    rw [findRow_cons] at h
    rw [List.cons_append, findRow_cons]
    by_cases hk : r.key = k
    · rw [if_pos hk] at h ⊢; exact h
    · rw [if_neg hk] at h ⊢; exact ih h

theorem findRow_append_right {rows : List ParsedRow} {k : Key}
    (h : findRow rows k = none) (l : List ParsedRow) :
    findRow (rows ++ l) k = findRow l k := by
  induction rows with
  | nil => rfl
  | cons r rs ih =>
    rw [findRow_cons] at h
    rw [List.cons_append, findRow_cons]
    by_cases hk : r.key = k
    · rw [if_pos hk] at h; exact absurd h (by simp)
    · rw [if_neg hk] at h; rw [if_neg hk]; exact ih h

theorem findRow_updateRow (rows : List ParsedRow) (k k' : Key)
    (f : ParsedRow → ParsedRow) (hf : ∀ r, (f r).key = r.key) :
    findRow (updateRow rows k f) k' =
      (findRow rows k').map (fun r => if r.key = k then f r else r) := by
  induction rows with
  | nil => rfl
  | cons r rs ih =>
    show findRow ((if r.key = k then f r else r) :: updateRow rs k f) k' = _
    rw [findRow_cons, findRow_cons]
    have hkey : (if r.key = k then f r else r).key = r.key := by
      by_cases h : r.key = k
      · rw [if_pos h, hf]
      · rw [if_neg h]
    by_cases h' : r.key = k'
    · rw [hkey, if_pos h', if_pos h']; rfl
    · rw [hkey, if_neg h', if_neg h', ih]

theorem findRow_updateRow_self {rows : List ParsedRow} {k0 : Key} {p : ParsedRow}
    {f : ParsedRow → ParsedRow} (hf : ∀ r, (f r).key = r.key)
    (hfind : findRow rows k0 = some p) :
    findRow (updateRow rows k0 f) k0 = some (f p) := by
  rw [findRow_updateRow _ _ _ _ hf, hfind, Option.map, if_pos (findRow_key hfind)]

theorem findRow_updateRow_other {rows : List ParsedRow} {k0 k : Key}
    {f : ParsedRow → ParsedRow} (hf : ∀ r, (f r).key = r.key) (hk : k0 ≠ k) :
    findRow (updateRow rows k0 f) k = findRow rows k := by
  rw [findRow_updateRow _ _ _ _ hf]
  cases hq : findRow rows k with
  | none => rfl
  | some q =>
    have : q.key ≠ k0 := by rw [findRow_key hq]; exact fun h => hk h.symm
    rw [Option.map, if_neg this]

theorem findRow_append_single_self {rows : List ParsedRow} {k0 : Key}
    {r0 : ParsedRow} (hr0 : r0.key = k0) (hfind : findRow rows k0 = none) :
    findRow (rows ++ [r0]) k0 = some r0 := by
  rw [findRow_append_right hfind, findRow_cons, if_pos hr0]

theorem findRow_append_single_other {rows : List ParsedRow} {k0 k : Key}
    {r0 : ParsedRow} (hr0 : r0.key = k0) (hk : k0 ≠ k) :
    findRow (rows ++ [r0]) k = findRow rows k := by
  cases hq : findRow rows k with
  | some q => rw [findRow_append_left hq]
  | none =>
    rw [findRow_append_right hq, findRow_cons, if_neg (by rw [hr0]; exact hk),
      findRow_nil]

theorem addCost_key (ck : CostKind) (a : Int) (p : ParsedRow) :
    (addCost ck a p).key = p.key := by cases ck <;> rfl

theorem addCost_is_return (ck : CostKind) (a : Int) (p : ParsedRow) :
    (addCost ck a p).is_return = p.is_return := by cases ck <;> rfl

theorem addCost_title (ck : CostKind) (a : Int) (p : ParsedRow) :
    (addCost ck a p).title = p.title := by cases ck <;> rfl

theorem addCost_sale_amount (ck : CostKind) (a : Int) (p : ParsedRow) :
    (addCost ck a p).sale_amount = p.sale_amount := by cases ck <;> rfl

/-- Row events whose identity is not `k` — including skipped rows with a
missing identity cell — leave the line stored under `k` untouched. -/
theorem applyEvent_not_key (e : Event) (rows : List ParsedRow) (k : Key)
    (hk : e.key? ≠ some k) :
    findRow (applyEvent rows e) k = findRow rows k := by
  obtain ⟨st, kind, d⟩ := e
  cases ho : d.order_id with
  | none =>
    cases kind with
    | sales ret => simp [applyEvent, processSalesRow, ho]
    | cost ck ret => simp [applyEvent, processCostRow, ho]
  | some oid =>
    cases hd : d.dkpc with
    | none =>
      cases kind with
      | sales ret => simp [applyEvent, processSalesRow, ho, hd]
      | cost ck ret => simp [applyEvent, processCostRow, ho, hd]
    | some dk =>
      have hne : (st, oid, dk) ≠ k := by
        intro hEq
        exact hk (by simp [Event.key?, ho, hd, hEq])
      cases kind with
      | sales ret =>
        show findRow (processSalesRow st ret rows d) k = findRow rows k
        cases hfind : findRow rows (st, oid, dk) with
        | some p =>
          simp only [processSalesRow, ho, hd, hfind]
          exact findRow_updateRow_other
            (by intro r; cases ret <;> rfl) hne
        | none =>
          simp only [processSalesRow, ho, hd, hfind]
          exact findRow_append_single_other rfl hne
      | cost ck ret =>
        show findRow (processCostRow st ck ret rows d) k = findRow rows k
        cases hfind : findRow rows (st, oid, dk) with
        | some p =>
          simp only [processCostRow, ho, hd, hfind]
          exact findRow_updateRow_other (fun r => addCost_key ck _ r) hne
        | none =>
          simp only [processCostRow, ho, hd, hfind]
          exact findRow_append_single_other (addCost_key ck _ _) hne

/-- Whatever a later row event does to an existing ledger line, the line's
`is_return` flag and title are untouched, and a cost event also leaves its
sale amount untouched: the merge only ever adds to the numeric fields of an
existing line. -/
theorem applyEvent_found (e : Event) (rows : List ParsedRow) (k : Key)
    (p : ParsedRow) (h : findRow rows k = some p) :
    ∃ q, findRow (applyEvent rows e) k = some q ∧
      q.is_return = p.is_return ∧ q.title = p.title ∧
      (∀ ck ret, e.kind = SheetKind.cost ck ret → q.sale_amount = p.sale_amount) := by
  by_cases hk : e.key? = some k
  case neg =>
    exact ⟨p, by rw [applyEvent_not_key e rows k hk]; exact h, rfl, rfl,
      fun _ _ _ => rfl⟩
  case pos =>
    obtain ⟨st, kind, d⟩ := e
    cases ho : d.order_id with
    | none => simp [Event.key?, ho] at hk
    | some oid =>
      cases hd : d.dkpc with
      | none => simp [Event.key?, ho, hd] at hk
      | some dk =>
        have hkk : (st, oid, dk) = k := by simpa [Event.key?, ho, hd] using hk
        subst hkk
        cases kind with
        | sales ret =>
          show ∃ q, findRow (processSalesRow st ret rows d) (st, oid, dk) = some q ∧ _
          simp only [processSalesRow, ho, hd, h]
          refine ⟨_, findRow_updateRow_self (by intro r; cases ret <;> rfl) h,
            ?_, ?_, ?_⟩
          · cases ret <;> rfl
          · cases ret <;> rfl
          · intro ck r hEq; exact absurd hEq (by simp)
        | cost ck ret =>
          show ∃ q, findRow (processCostRow st ck ret rows d) (st, oid, dk) = some q ∧ _
          simp only [processCostRow, ho, hd, h]
          refine ⟨_, findRow_updateRow_self (fun r => addCost_key ck _ r) h,
            addCost_is_return ck _ p, addCost_title ck _ p,
            fun _ _ _ => addCost_sale_amount ck _ p⟩

/-- Description of the ledger line created by the first row event carrying
a fresh identity: a sales/return event fills in its sheet's return flag,
the row's title, and the signed amount; a cost event creates a non-return
line with empty title and zero sale amount. -/
theorem applyEvent_create (e : Event) (rows : List ParsedRow) (k : Key)
    (hk : e.key? = some k) (h : findRow rows k = none) :
    ∃ q, findRow (applyEvent rows e) k = some q ∧
      q.is_return = (match e.kind with | .sales ret => ret | .cost _ _ => false) ∧
      q.title = (match e.kind with
        | .sales _ => e.data.title.getD "" | .cost _ _ => "") ∧
      q.sale_amount = (match e.kind with
        | .sales _ => e.amountDelta | .cost _ _ => 0) := by
  obtain ⟨st, kind, d⟩ := e
  cases ho : d.order_id with
  | none => simp [Event.key?, ho] at hk
  | some oid =>
    cases hd : d.dkpc with
    | none => simp [Event.key?, ho, hd] at hk
    | some dk =>
      have hkk : (st, oid, dk) = k := by simpa [Event.key?, ho, hd] using hk
      subst hkk
      cases kind with
      | sales ret =>
        show ∃ q, findRow (processSalesRow st ret rows d) (st, oid, dk) = some q ∧ _
        simp only [processSalesRow, ho, hd, h]
        exact ⟨_, findRow_append_single_self rfl h, rfl, rfl,
          by simp [Event.amountDelta]⟩
      | cost ck ret =>
        show ∃ q, findRow (processCostRow st ck ret rows d) (st, oid, dk) = some q ∧ _
        simp only [processCostRow, ho, hd, h]
        exact ⟨_, findRow_append_single_self (addCost_key ck _ _) h,
          addCost_is_return ck _ _, addCost_title ck _ _,
          addCost_sale_amount ck _ _⟩

/-- Effect of one row event on the numeric fields of one identity: the
event's contribution is added componentwise, whether the line already
existed or the event just created it. -/
theorem numAt_applyEvent (rows : List ParsedRow) (e : Event) (k : Key) :
    numAt (applyEvent rows e) k = numAt rows k + e.contrib k := by
  by_cases hk : e.key? = some k
  case neg =>
    have hc : e.contrib k = ((0, 0, 0, 0, 0) : Int × Int × Int × Int × Int) := by
      rw [Event.contrib, if_neg hk]
    have hz : ((0, 0, 0, 0, 0) : Int × Int × Int × Int × Int) = 0 := rfl
    rw [hc, hz, add_zero, numAt, numAt, applyEvent_not_key e rows k hk]
  case pos =>
    obtain ⟨st, kind, d⟩ := e
    cases ho : d.order_id with
    | none => simp [Event.key?, ho] at hk
    | some oid =>
      cases hd : d.dkpc with
      | none => simp [Event.key?, ho, hd] at hk
      | some dk =>
        have hkk : (st, oid, dk) = k := by simpa [Event.key?, ho, hd] using hk
        subst hkk
        cases hfind : findRow rows (st, oid, dk) with
        | some p =>
          cases kind with
          | sales ret =>
            show numAt (processSalesRow st ret rows d) (st, oid, dk) = _
            simp only [processSalesRow, ho, hd, hfind]
            have heq := findRow_updateRow_self
              (f := fun p => if ret then
                  { p with sale_amount := p.sale_amount - |normalize_number d.amount| }
                else { p with sale_amount := p.sale_amount + normalize_number d.amount })
              (by intro r; cases ret <;> rfl) hfind
            rw [numAt, heq, numAt, hfind, Event.contrib, if_pos hk]
            cases ret <;>
              simp [numTuple, Event.amountDelta, Prod.mk_add_mk, sub_eq_add_neg]
          | cost ck ret =>
            show numAt (processCostRow st ck ret rows d) (st, oid, dk) = _
            simp only [processCostRow, ho, hd, hfind]
            have heq := findRow_updateRow_self
              (f := addCost ck (normalize_number d.amount * (if ret then -1 else 1)))
              (fun r => addCost_key ck _ r) hfind
            rw [numAt, heq, numAt, hfind, Event.contrib, if_pos hk]
            cases ck <;>
              simp [numTuple, addCost, Event.amountDelta, Prod.mk_add_mk]
        | none =>
          cases kind with
          | sales ret =>
            show numAt (processSalesRow st ret rows d) (st, oid, dk) = _
            simp only [processSalesRow, ho, hd, hfind]
            have heq : findRow (rows ++
                [{ sale_type := st, order_id := oid, dkpc := dk,
                   title := d.title.getD "", is_return := ret,
                   sale_amount := if ret then -|normalize_number d.amount|
                     else normalize_number d.amount }]) (st, oid, dk)
                = some
                  { sale_type := st, order_id := oid, dkpc := dk,
                    title := d.title.getD "", is_return := ret,
                    sale_amount := if ret then -|normalize_number d.amount|
                      else normalize_number d.amount } :=
              findRow_append_single_self rfl hfind
            rw [numAt, heq, numAt, hfind, Event.contrib, if_pos hk]
            cases ret <;> simp [numTuple, Event.amountDelta, Prod.mk_add_mk]
          | cost ck ret =>
            show numAt (processCostRow st ck ret rows d) (st, oid, dk) = _
            simp only [processCostRow, ho, hd, hfind]
            have heq : findRow (rows ++
                [addCost ck (normalize_number d.amount * (if ret then -1 else 1))
                  { sale_type := st, order_id := oid, dkpc := dk, title := "",
                    is_return := false }]) (st, oid, dk)
                = some (addCost ck (normalize_number d.amount * (if ret then -1 else 1))
                  { sale_type := st, order_id := oid, dkpc := dk, title := "",
                    is_return := false }) :=
              findRow_append_single_self (addCost_key ck _ _) hfind
            rw [numAt, heq, numAt, hfind, Event.contrib, if_pos hk]
            cases ck <;>
              simp [numTuple, addCost, Event.amountDelta, Prod.mk_add_mk]

theorem numAt_foldl (evs : List Event) (rows : List ParsedRow) (k : Key) :
    numAt (evs.foldl applyEvent rows) k
      = numAt rows k + (evs.map (fun e => e.contrib k)).sum := by
  induction evs generalizing rows with
  | nil => simp
  | cons e evs ih =>
    rw [List.foldl_cons, ih, numAt_applyEvent, List.map_cons, List.sum_cons,
      add_assoc]

theorem sum_map_flatMap {α β M : Type*} [AddCommMonoid M] (l : List α)
    (f : α → List β) (g : β → M) :
    ((l.flatMap f).map g).sum = (l.map (fun a => ((f a).map g).sum)).sum := by
  induction l with
  | nil => rfl
  | cons a l ih => simp [List.map_append, List.sum_append, ih]

/-- Numeric fields of the line stored under `k` after a whole run: the sum,
sheet by sheet, of the contributions of that sheet's row events to `k`. -/
theorem numAt_parse (sheets : List Sheet) (k : Key) :
    numAt (parse_invoice_excel sheets) k
      = (sheets.map (fun sh => ((sh.events.map (fun e => e.contrib k)).sum))).sum := by
  rw [parse_invoice_excel, processEvents, numAt_foldl]
  have h0 : numAt [] k = 0 := rfl
  rw [h0, zero_add, sum_map_flatMap]

/-! Claim theorems. -/

/-- C8: `_normalize_number` is total — for every input it returns an integer
without raising, with result 0 for any digit-free (hence unparseable) text
and for empty, None and NaN inputs — and it satisfies the listed
equalities: `normalize("۱۲۳٬۴۵۶") = 123456`, `normalize("١٢٣") = 123`,
`normalize("-123") = -123`, `normalize("") = 0`, `normalize(None) = 0`. -/
theorem normalize_number_total_and_examples :
    (∀ s : String, (∀ c ∈ s.toList, (translitChar c).isDigit = false) →
      normalize_number (Cell.text s) = 0)
    ∧ normalize_number (Cell.text "۱۲۳٬۴۵۶") = 123456
    ∧ normalize_number (Cell.text "١٢٣") = 123
    ∧ normalize_number (Cell.text "-123") = -123
    ∧ normalize_number (Cell.text "") = 0
    ∧ normalize_number Cell.null = 0
    ∧ normalize_number Cell.nan = 0 := by
  refine ⟨?_, by decide, by decide, by decide, by decide, rfl, rfl⟩
  intro s hs
  show normalizeChars s.toList = 0
  have hsub : ∀ c ∈ pyStrip ((s.toList.filter
      (fun c => !(c == ',' || c == '٬'))).map translitChar),
      c ∈ (s.toList.filter (fun c => !(c == ',' || c == '٬'))).map translitChar := by
    intro c hc
    rw [pyStrip, List.mem_reverse] at hc
    have hc2 := (List.dropWhile_sublist _ (l := _)).subset hc
    rw [List.mem_reverse] at hc2
    exact (List.dropWhile_sublist _ (l := _)).subset hc2
  have hds : (pyStrip ((s.toList.filter
      (fun c => !(c == ',' || c == '٬'))).map translitChar)).filter Char.isDigit = [] := by
    rw [List.filter_eq_nil_iff]
    intro c hc
    have h := hsub c hc
    rw [List.mem_map] at h
    obtain ⟨a, ha, rfl⟩ := h
    have := hs a (List.mem_of_mem_filter ha)
    simp [this]
  simp only [normalizeChars, hds]
  simp

/-- C8 witness: the theorem applied to the digit-free input "abc". -/
theorem normalize_number_total_witness : normalize_number (Cell.text "abc") = 0 :=
  normalize_number_total_and_examples.1 "abc" (by decide)

/-- Finalization of a line with non-positive net sale amount: the stored
record is the zeroed return record. -/
theorem finalizeRow_nonpos (pr : ParsedRow) (h : pr.sale_amount ≤ 0) :
    finalizeRow pr =
      { sale_type := pr.sale_type, order_id := pr.order_id, dkpc := pr.dkpc,
        title := pr.title, sale_amount := 0, commission_amount := 0,
        shipping_fee := 0, processing_fee := 0, platform_dev_revenue := 0,
        tax_amount := 0, is_return := true } := by
  rw [finalizeRow, if_pos]
  simp [h]

/-- C2: every accumulated ledger line whose final sale_amount is ≤ 0 —
whether or not its is_return flag was ever set — is stored with
is_return = true and with sale_amount, commission_amount, shipping_fee,
processing_fee, platform_dev_revenue and tax_amount all exactly 0. -/
theorem nonpositive_sale_stored_as_zero_return (pr : ParsedRow)
    (h : pr.sale_amount ≤ 0) :
    (finalizeRow pr).is_return = true
    ∧ (finalizeRow pr).sale_amount = 0
    ∧ (finalizeRow pr).commission_amount = 0
    ∧ (finalizeRow pr).shipping_fee = 0
    ∧ (finalizeRow pr).processing_fee = 0
    ∧ (finalizeRow pr).platform_dev_revenue = 0
    ∧ (finalizeRow pr).tax_amount = 0 := by
  rw [finalizeRow_nonpos pr h]
  exact ⟨rfl, rfl, rfl, rfl, rfl, rfl, rfl⟩

/-- C2 witness: the theorem applied to a concrete line with net sale −5 and
non-zero cost fields. -/
theorem nonpositive_sale_stored_as_zero_return_witness :
    (finalizeRow ⟨SaleType.cash, "1", "D", "T", -5, false, 3, 4, 5, 6⟩).is_return = true
    ∧ (finalizeRow ⟨SaleType.cash, "1", "D", "T", -5, false, 3, 4, 5, 6⟩).sale_amount = 0
    ∧ (finalizeRow ⟨SaleType.cash, "1", "D", "T", -5, false, 3, 4, 5, 6⟩).commission_amount = 0
    ∧ (finalizeRow ⟨SaleType.cash, "1", "D", "T", -5, false, 3, 4, 5, 6⟩).shipping_fee = 0
    ∧ (finalizeRow ⟨SaleType.cash, "1", "D", "T", -5, false, 3, 4, 5, 6⟩).processing_fee = 0
    ∧ (finalizeRow ⟨SaleType.cash, "1", "D", "T", -5, false, 3, 4, 5, 6⟩).platform_dev_revenue = 0
    ∧ (finalizeRow ⟨SaleType.cash, "1", "D", "T", -5, false, 3, 4, 5, 6⟩).tax_amount = 0 :=
  nonpositive_sale_stored_as_zero_return
    ⟨SaleType.cash, "1", "D", "T", -5, false, 3, 4, 5, 6⟩ (by decide)

/-- Profit recalculation is idempotent on one stored row: a second run with
the same purchase price reproduces the first run's profit and tax. -/
theorem recalcRow_idem (r : InvoiceRow) : recalcRow (recalcRow r) = recalcRow r := by
  cases hr : r.is_return with
  | true => simp [recalcRow, hr]
  | false =>
    by_cases hp : r.purchase_price ≤ 0
    · simp [recalcRow, hr, hp]
    · simp [recalcRow, hr, hp]

/-- C9: profit recalculation is idempotent — for every stored line set (with
its fixed per-row purchase prices), running `recalc_profit` twice equals
running it once, on every line's profit and tax. -/
theorem recalc_profit_idempotent (rows : List InvoiceRow) :
    recalc_profit (recalc_profit rows) = recalc_profit rows := by
  unfold recalc_profit
  rw [List.map_map]
  simp only [Function.comp_def, recalcRow_idem]

/-- C7: on any run-level failure — the workbook cannot be opened or parsed
(`Except.error`), or an exception is raised inside the atomic
delete-all-then-insert block (`persistFault`) — the invoice ends in the
error state carrying the error text and its previously stored line set is
unchanged: zero lines are committed. -/
theorem failed_run_preserves_lines :
    ∀ (tiers : List PricingTier) (inv : InvoiceState) (e : String),
      (∀ pf : Option String,
        (process_invoice_file tiers inv (Except.error e) pf).status = Status.error
        ∧ (process_invoice_file tiers inv (Except.error e) pf).lines = inv.lines
        ∧ (process_invoice_file tiers inv (Except.error e) pf).error_message = e)
      ∧ (∀ prs : List ParsedRow,
        (process_invoice_file tiers inv (Except.ok prs) (some e)).status = Status.error
        ∧ (process_invoice_file tiers inv (Except.ok prs) (some e)).lines = inv.lines
        ∧ (process_invoice_file tiers inv (Except.ok prs) (some e)).error_message = e) := by
  intro tiers inv e
  exact ⟨fun pf => ⟨rfl, rfl, rfl⟩, fun prs => ⟨rfl, rfl, rfl⟩⟩

/-- C3 counterexample: take the finalized non-return line of a sale of 1000
with commission 100 (stored tax 10) and run one profit recalculation while
its purchase price still has the stored default 0.  The stored line stays
non-return, its tax_amount becomes 0, yet
`(commission_amount + processing_fee) // 10 = 10`. -/
theorem recalc_with_unset_price_zeroes_tax :
    (recalcRow (finalizeRow
      ⟨SaleType.cash, "1", "D", "T", 1000, false, 100, 0, 0, 0⟩)).is_return = false
    ∧ (recalcRow (finalizeRow
      ⟨SaleType.cash, "1", "D", "T", 1000, false, 100, 0, 0, 0⟩)).tax_amount = 0
    ∧ Int.fdiv ((recalcRow (finalizeRow
        ⟨SaleType.cash, "1", "D", "T", 1000, false, 100, 0, 0, 0⟩)).commission_amount
      + (recalcRow (finalizeRow
        ⟨SaleType.cash, "1", "D", "T", 1000, false, 100, 0, 0, 0⟩)).processing_fee) 10
      = 10 := by
  decide

/-- C3 (amended): for every stored non-return line the invariant
`tax_amount = (commission_amount + processing_fee) // 10` over the stored
(clamped, non-negative) values holds at finalization, and is re-established
by every profit recalculation with a positive purchase price; a
recalculation of a line with purchase_price ≤ 0 (or of a return line)
instead stores tax_amount = 0 and profit = 0. -/
theorem tax_formula_invariant :
    (∀ pr : ParsedRow, (finalizeRow pr).is_return = false →
      (finalizeRow pr).tax_amount
        = Int.fdiv ((finalizeRow pr).commission_amount
            + (finalizeRow pr).processing_fee) 10)
    ∧ (∀ r : InvoiceRow, r.is_return = false → 0 < r.purchase_price →
      (recalcRow r).tax_amount
        = Int.fdiv ((recalcRow r).commission_amount
            + (recalcRow r).processing_fee) 10)
    ∧ (∀ r : InvoiceRow, r.is_return = true ∨ r.purchase_price ≤ 0 →
      (recalcRow r).tax_amount = 0 ∧ (recalcRow r).profit = 0) := by
  refine ⟨?_, ?_, ?_⟩
  · intro pr h
    simp only [finalizeRow] at h ⊢
    by_cases hc : (pr.is_return || decide (pr.sale_amount ≤ 0)) = true
    · rw [if_pos hc] at h; simp at h
    · rw [if_neg hc]
  · intro r h hp
    have hc : ¬ ((r.is_return || decide (r.purchase_price ≤ 0)) = true) := by
      simp [h]; omega
    simp only [recalcRow]
    rw [if_neg hc]
  · intro r h
    rcases h with h | h
    · simp [recalcRow, h]
    · have hd : decide (r.purchase_price ≤ 0) = true := by simpa using h
      simp [recalcRow, hd]

/-- C3 witness: the three parts of the theorem applied to concrete lines —
a finalized sale, a stored line recalculated with purchase price 500, and a
stored line recalculated with the default purchase price 0. -/
theorem tax_formula_invariant_witness :
    ((finalizeRow ⟨SaleType.cash, "1", "D", "T", 1000, false, 100, 0, 0, 0⟩).tax_amount
      = Int.fdiv
          ((finalizeRow ⟨SaleType.cash, "1", "D", "T", 1000, false, 100, 0, 0, 0⟩).commission_amount
            + (finalizeRow ⟨SaleType.cash, "1", "D", "T", 1000, false, 100, 0, 0, 0⟩).processing_fee)
          10)
    ∧ ((recalcRow ⟨SaleType.cash, "1", "D", "T", 1000, 500, 100, 20, 30, 0, 13, 0, false⟩).tax_amount
      = Int.fdiv
          ((recalcRow ⟨SaleType.cash, "1", "D", "T", 1000, 500, 100, 20, 30, 0, 13, 0, false⟩).commission_amount
            + (recalcRow ⟨SaleType.cash, "1", "D", "T", 1000, 500, 100, 20, 30, 0, 13, 0, false⟩).processing_fee)
          10)
    ∧ ((recalcRow ⟨SaleType.cash, "1", "D", "T", 1000, 0, 100, 20, 30, 0, 13, 0, false⟩).tax_amount = 0
      ∧ (recalcRow ⟨SaleType.cash, "1", "D", "T", 1000, 0, 100, 20, 30, 0, 13, 0, false⟩).profit = 0) :=
  ⟨tax_formula_invariant.1 ⟨SaleType.cash, "1", "D", "T", 1000, false, 100, 0, 0, 0⟩ (by decide),
   tax_formula_invariant.2.1 ⟨SaleType.cash, "1", "D", "T", 1000, 500, 100, 20, 30, 0, 13, 0, false⟩
     (by decide) (by decide),
   tax_formula_invariant.2.2 ⟨SaleType.cash, "1", "D", "T", 1000, 0, 100, 20, 30, 0, 13, 0, false⟩
     (Or.inr (by decide))⟩

theorem scanTiers_cons_none (n : Int) (t : PricingTier) (ts : List PricingTier)
    (h : t.max_rows = none) :
    scanTiers n (t :: ts) =
      if (t.min_rows : Int) ≤ n then (t.price_per_invoice : Int)
      else scanTiers n ts := by
  rw [scanTiers, h]

theorem scanTiers_cons_some (n : Int) (t : PricingTier) (ts : List PricingTier)
    (mx : Nat) (h : t.max_rows = some mx) :
    scanTiers n (t :: ts) =
      if (t.min_rows : Int) ≤ n ∧ n ≤ (mx : Int) then (t.price_per_invoice : Int)
      else scanTiers n ts := by
  rw [scanTiers, h]

theorem scanTiers_nonneg (n : Int) (tiers : List PricingTier) :
    0 ≤ scanTiers n tiers := by
  induction tiers with
  | nil => exact le_refl 0
  | cons t ts ih =>
    rcases hmx : t.max_rows with _ | mx
    · rw [scanTiers_cons_none n t ts hmx]
      split
      · exact Int.natCast_nonneg _
      · exact ih
    · rw [scanTiers_cons_some n t ts mx hmx]
      split
      · exact Int.natCast_nonneg _
      · exact ih

theorem scanTiers_above_bounded (n : Int) (tiers : List PricingTier)
    (h : ∀ t ∈ tiers, ∃ mx, t.max_rows = some mx ∧ (mx : Int) < n) :
    scanTiers n tiers = 0 := by
  induction tiers with
  | nil => rfl
  | cons t ts ih =>
    obtain ⟨mx, hmx, hlt⟩ := h t (List.mem_cons_self t ts)
    rw [scanTiers_cons_some n t ts mx hmx, if_neg (by omega)]
    exact ih (fun t' ht' => h t' (List.mem_cons_of_mem t ht'))

theorem scanTiers_lower_bound {s : Nat} {ts : List PricingTier} (f : Nat)
    (hc : Covers s ts) (hall : ∀ t ∈ ts, f ≤ t.price_per_invoice)
    {m : Int} (hm : (s : Int) ≤ m) : (f : Int) ≤ scanTiers m ts := by
  induction hc with
  | single s' f' =>
    rw [scanTiers_cons_none m ⟨s', none, f'⟩ [] rfl, if_pos hm]
    exact_mod_cast hall ⟨s', none, f'⟩ (List.mem_singleton_self _)
  | step s' mx f' ts' hsm hcov ih =>
    rw [scanTiers_cons_some m ⟨s', some mx, f'⟩ ts' mx rfl]
    by_cases hmx : m ≤ (mx : Int)
    · rw [if_pos ⟨hm, hmx⟩]
      exact_mod_cast hall ⟨s', some mx, f'⟩ (List.mem_cons_self _ _)
    · rw [if_neg (fun hh => hmx hh.2)]
      exact ih (fun t' ht' => hall t' (List.mem_cons_of_mem _ ht')) (by omega)

theorem scanTiers_mono {s : Nat} {ts : List PricingTier} (hc : Covers s ts)
    (hpw : List.Pairwise (fun a b => a.price_per_invoice ≤ b.price_per_invoice) ts)
    {n m : Int} (hn : (s : Int) ≤ n) (hnm : n ≤ m) :
    scanTiers n ts ≤ scanTiers m ts := by
  induction hc with
  | single s' f' =>
    rw [scanTiers_cons_none n ⟨s', none, f'⟩ [] rfl,
      scanTiers_cons_none m ⟨s', none, f'⟩ [] rfl,
      if_pos hn, if_pos (le_trans hn hnm)]
  | step s' mx f' ts' hsm hcov ih =>
    rw [List.pairwise_cons] at hpw
    obtain ⟨hall, htl⟩ := hpw
    rw [scanTiers_cons_some n ⟨s', some mx, f'⟩ ts' mx rfl,
      scanTiers_cons_some m ⟨s', some mx, f'⟩ ts' mx rfl]
    by_cases hn2 : n ≤ (mx : Int)
    · rw [if_pos ⟨hn, hn2⟩]
      by_cases hm2 : m ≤ (mx : Int)
      · rw [if_pos ⟨le_trans hn hnm, hm2⟩]
      · rw [if_neg (fun hh => hm2 hh.2)]
        exact scanTiers_lower_bound f' hcov hall (by omega)
    · rw [if_neg (fun hh => hn2 hh.2),
        if_neg (fun hh => hn2 (le_trans hnm hh.2))]
      exact ih htl (by omega)

/-- C6 counterexample: the two-tier table [1..500 ↦ 100, 501..1000 ↦ 50] has
non-overlapping ranges (no row count lies in both tiers), yet the resolved
price strictly decreases from row count 1 to row count 501 — the claimed
monotonicity fails for a non-overlapping table with decreasing fees. -/
theorem price_not_monotone_for_decreasing_fees :
    (∀ n : Nat, ¬(inTier n ⟨1, some 500, 100⟩ = true
        ∧ inTier n ⟨501, some 1000, 50⟩ = true))
    ∧ (1 : Int) ≤ 501
    ∧ calculate_price_for_row_count
        [⟨1, some 500, 100⟩, ⟨501, some 1000, 50⟩] 501
      < calculate_price_for_row_count
        [⟨1, some 500, 100⟩, ⟨501, some 1000, 50⟩] 1 := by
  refine ⟨?_, by omega, by decide⟩
  intro n h
  simp only [inTier, Bool.and_eq_true, decide_eq_true_eq] at h
  omega

/-- C6 (amended): `calculate_price_for_row_count` returns 0 for every
row count ≤ 0 and, when the table has no unbounded tier, for every row
count above all tiers' max_rows; and it is monotonic non-decreasing in the
row count for every tier table that covers [1, ∞) contiguously (hence with
non-overlapping ranges) with fees non-decreasing along the table. -/
theorem price_for_row_count_monotone_and_zero_cases :
    (∀ (tiers : List PricingTier) (n : Int), n ≤ 0 →
      calculate_price_for_row_count tiers n = 0)
    ∧ (∀ (tiers : List PricingTier) (n : Int),
        (∀ t ∈ tiers, ∃ mx, t.max_rows = some mx ∧ (mx : Int) < n) →
        calculate_price_for_row_count tiers n = 0)
    ∧ (∀ tiers : List PricingTier, Covers 1 tiers →
        List.Pairwise (fun a b => a.price_per_invoice ≤ b.price_per_invoice) tiers →
        ∀ n m : Int, n ≤ m →
          calculate_price_for_row_count tiers n
            ≤ calculate_price_for_row_count tiers m) := by
  refine ⟨?_, ?_, ?_⟩
  · intro tiers n h
    rw [calculate_price_for_row_count, if_pos h]
  · intro tiers n h
    rw [calculate_price_for_row_count]
    split
    · rfl
    · exact scanTiers_above_bounded n tiers h
  · intro tiers hcov hpw n m hnm
    rw [calculate_price_for_row_count, calculate_price_for_row_count]
    by_cases hn0 : n ≤ 0
    · rw [if_pos hn0]
      split
      · exact le_refl 0
      · exact scanTiers_nonneg m tiers
    · rw [if_neg hn0, if_neg (by omega)]
      exact scanTiers_mono hcov hpw (by omega) hnm

/-- C6 witness: the three parts of the theorem applied to the documented
tier scenario [1..500 ↦ 490000, 501..1000 ↦ 890000, 1001.. ↦ 1290000] (a
contiguous cover of [1, ∞) with non-decreasing fees) and to a bounded
one-tier table queried above its range. -/
theorem price_for_row_count_zero_and_monotone_witness :
    calculate_price_for_row_count [⟨1, some 500, 490000⟩] (-3) = 0
    ∧ calculate_price_for_row_count [⟨1, some 500, 490000⟩] 600 = 0
    ∧ calculate_price_for_row_count
        [⟨1, some 500, 490000⟩, ⟨501, some 1000, 890000⟩, ⟨1001, none, 1290000⟩] 100
      ≤ calculate_price_for_row_count
        [⟨1, some 500, 490000⟩, ⟨501, some 1000, 890000⟩, ⟨1001, none, 1290000⟩] 750 :=
  ⟨price_for_row_count_monotone_and_zero_cases.1 [⟨1, some 500, 490000⟩] (-3) (by omega),
   price_for_row_count_monotone_and_zero_cases.2.1 [⟨1, some 500, 490000⟩] 600
     (by intro t ht; simp at ht; subst ht; exact ⟨500, rfl, by omega⟩),
   price_for_row_count_monotone_and_zero_cases.2.2
     [⟨1, some 500, 490000⟩, ⟨501, some 1000, 890000⟩, ⟨1001, none, 1290000⟩]
     (Covers.step 1 500 490000 _ (by omega)
       (Covers.step 501 1000 890000 _ (by omega)
         (Covers.single 1001 1290000)))
     (by simp [List.pairwise_cons])
     100 750 (by omega)⟩

/-- C1 counterexample: a cash sale row of 1000 followed by a return-sheet
row of 300 for the same identity (cash, "1", "D").  After the return row is
processed the ledger line exists with sale_amount 700 but its is_return
flag is still false — `get_or_create` ignores the flag for an existing
line, so the claimed "flag becomes true after the return row" fails. -/
theorem return_row_on_existing_line_leaves_flag_false :
    parse_invoice_excel
      [⟨SaleType.cash, SheetKind.sales false,
        [⟨some "1", some "D", some "A", Cell.num 1000⟩]⟩,
       ⟨SaleType.cash, SheetKind.sales true,
        [⟨some "1", some "D", some "A", Cell.num 300⟩]⟩]
    = [{ sale_type := SaleType.cash, order_id := "1", dkpc := "D", title := "A",
         sale_amount := 700, is_return := false }] := by
  decide

/-- C1 (amended): a return-sheet row sets the is_return flag to true exactly
when it creates the ledger line for its identity; a return-sheet row hitting
an existing line leaves the line's flag unchanged (it only decrements the
sale amount); and the flag is sticky in the sense that no later event of
any kind resets a true flag. -/
theorem return_flag_set_on_create_only :
    (∀ (st : SaleType) (d : RowData) (rows : List ParsedRow) (oid dk : String),
      d.order_id = some oid → d.dkpc = some dk →
      findRow rows (st, oid, dk) = none →
      ∃ q, findRow (processSalesRow st true rows d) (st, oid, dk) = some q ∧
        q.is_return = true)
    ∧ (∀ (st : SaleType) (d : RowData) (rows : List ParsedRow) (k : Key)
        (p : ParsedRow), findRow rows k = some p →
        ∃ q, findRow (processSalesRow st true rows d) k = some q ∧
          q.is_return = p.is_return)
    ∧ (∀ (e : Event) (rows : List ParsedRow) (k : Key) (p : ParsedRow),
        findRow rows k = some p → p.is_return = true →
        ∃ q, findRow (applyEvent rows e) k = some q ∧ q.is_return = true) := by
  refine ⟨?_, ?_, ?_⟩
  · intro st d rows oid dk ho hd hnone
    obtain ⟨q, hq, hret, -, -⟩ := applyEvent_create ⟨st, SheetKind.sales true, d⟩
      rows (st, oid, dk) (by simp [Event.key?, ho, hd]) hnone
    exact ⟨q, hq, hret⟩
  · intro st d rows k p hp
    obtain ⟨q, hq, hret, -, -⟩ :=
      applyEvent_found ⟨st, SheetKind.sales true, d⟩ rows k p hp
    exact ⟨q, hq, hret⟩
  · intro e rows k p hp hret
    obtain ⟨q, hq, hqret, -, -⟩ := applyEvent_found e rows k p hp
    exact ⟨q, hq, by rw [hqret, hret]⟩

/-- C1 witness: the creation part applied to a concrete return row on an
empty ledger, so every hypothesis is discharged at a concrete input. -/
theorem return_flag_set_on_create_only_witness :
    ∃ q, findRow (processSalesRow SaleType.cash true []
        ⟨some "1", some "D", none, Cell.num 300⟩) (SaleType.cash, "1", "D") = some q ∧
      q.is_return = true :=
  return_flag_set_on_create_only.1 SaleType.cash
    ⟨some "1", some "D", none, Cell.num 300⟩ [] "1" "D" rfl rfl rfl

/-- C4 counterexample: the cash sales sheet — the first sheet of the fixed
sequence, so this is exactly the order the real run processes — holds two
rows for the identity (cash, "1", "D"), titled "A" then "X".  The first row
creates the line with title "A"; the second, later, non-empty title "X"
does not override it, so the stored title is "A" — "last non-empty title
wins" fails. -/
theorem later_title_does_not_override :
    parse_invoice_excel
      [⟨SaleType.cash, SheetKind.sales false,
        [⟨some "1", some "D", some "A", Cell.num 1000⟩,
         ⟨some "1", some "D", some "X", Cell.num 500⟩]⟩]
    = [{ sale_type := SaleType.cash, order_id := "1", dkpc := "D", title := "A",
         sale_amount := 1500, is_return := false }] := by
  decide

/-- C4 (amended): the stored title of a ledger line is fixed by the
contribution that creates the line — the row's title (empty for a missing
cell) for a sales/return row, the empty string for a cost row — and no
later contribution, whatever title it carries, changes it. -/
theorem title_fixed_at_creation :
    (∀ (e : Event) (rows : List ParsedRow) (k : Key) (p : ParsedRow),
      findRow rows k = some p →
      ∃ q, findRow (applyEvent rows e) k = some q ∧ q.title = p.title)
    ∧ (∀ (st : SaleType) (ret : Bool) (d : RowData) (rows : List ParsedRow)
        (oid dk : String),
      d.order_id = some oid → d.dkpc = some dk →
      findRow rows (st, oid, dk) = none →
      ∃ q, findRow (processSalesRow st ret rows d) (st, oid, dk) = some q ∧
        q.title = d.title.getD "")
    ∧ (∀ (st : SaleType) (ck : CostKind) (ret : Bool) (d : RowData)
        (rows : List ParsedRow) (oid dk : String),
      d.order_id = some oid → d.dkpc = some dk →
      findRow rows (st, oid, dk) = none →
      ∃ q, findRow (processCostRow st ck ret rows d) (st, oid, dk) = some q ∧
        q.title = "") := by
  refine ⟨?_, ?_, ?_⟩
  · intro e rows k p hp
    obtain ⟨q, hq, -, htitle, -⟩ := applyEvent_found e rows k p hp
    exact ⟨q, hq, htitle⟩
  · intro st ret d rows oid dk ho hd hnone
    obtain ⟨q, hq, -, htitle, -⟩ := applyEvent_create ⟨st, SheetKind.sales ret, d⟩
      rows (st, oid, dk) (by simp [Event.key?, ho, hd]) hnone
    exact ⟨q, hq, htitle⟩
  · intro st ck ret d rows oid dk ho hd hnone
    obtain ⟨q, hq, -, htitle, -⟩ := applyEvent_create ⟨st, SheetKind.cost ck ret, d⟩
      rows (st, oid, dk) (by simp [Event.key?, ho, hd]) hnone
    exact ⟨q, hq, htitle⟩

/-- C4 witness: the no-override part applied to a concrete ledger holding
one line and a sale event carrying a different, non-empty title. -/
theorem title_fixed_at_creation_witness :
    ∃ q, findRow (applyEvent
        [⟨SaleType.cash, "1", "D", "A", 0, false, 0, 0, 0, 0⟩]
        ⟨SaleType.cash, SheetKind.sales false, ⟨some "1", some "D", some "X", Cell.num 5⟩⟩)
      (SaleType.cash, "1", "D") = some q ∧
      q.title = (⟨SaleType.cash, "1", "D", "A", 0, false, 0, 0, 0, 0⟩ : ParsedRow).title :=
  title_fixed_at_creation.1
    ⟨SaleType.cash, SheetKind.sales false, ⟨some "1", some "D", some "X", Cell.num 5⟩⟩
    [⟨SaleType.cash, "1", "D", "A", 0, false, 0, 0, 0, 0⟩]
    (SaleType.cash, "1", "D") _ rfl

/-- Invariant behind C10: over any event fold in which every event carrying
identity `k` is a cost event, the line stored under `k` (if any) keeps
sale_amount = 0. -/
theorem sale_amount_zero_of_cost_only (k : Key) :
    ∀ (evs : List Event) (rows : List ParsedRow),
      (∀ e ∈ evs, e.key? = some k → ∃ ck ret, e.kind = SheetKind.cost ck ret) →
      (∀ p, findRow rows k = some p → p.sale_amount = 0) →
      ∀ p, findRow (evs.foldl applyEvent rows) k = some p → p.sale_amount = 0 := by
  intro evs
  induction evs with
  | nil => intro rows _ hbase p hp; exact hbase p hp
  | cons e evs ih =>
    intro rows hcost hbase p hp
    rw [List.foldl_cons] at hp
    refine ih (applyEvent rows e)
      (fun e' he' => hcost e' (List.mem_cons_of_mem e he')) ?_ p hp
    intro q hq
    by_cases hk : e.key? = some k
    · obtain ⟨ck, ret, hkind⟩ := hcost e (List.mem_cons_self e evs) hk
      cases hfind : findRow rows k with
      | some p0 =>
        obtain ⟨q', hq', -, -, hsale⟩ := applyEvent_found e rows k p0 hfind
        rw [hq'] at hq
        cases hq
        rw [hsale ck ret hkind]
        exact hbase p0 hfind
      | none =>
        obtain ⟨q', hq', -, -, hsale⟩ := applyEvent_create e rows k hk hfind
        rw [hq'] at hq
        cases hq
        rw [hsale, hkind]
    · rw [applyEvent_not_key e rows k hk] at hq
      exact hbase q hq

/-- C10: an identity that receives contributions only from cost sheets —
never from a sale or return sheet — ends the merge with sale_amount 0, so
finalization stores it as a return with every monetary field, including the
cost amounts that created the line, equal to 0. -/
theorem cost_only_identity_stored_as_zero_return :
    ∀ (evs : List Event) (k : Key),
      (∀ e ∈ evs, e.key? = some k → ∃ ck ret, e.kind = SheetKind.cost ck ret) →
      ∀ p, findRow (processEvents evs) k = some p →
        p.sale_amount = 0
        ∧ (finalizeRow p).is_return = true
        ∧ (finalizeRow p).sale_amount = 0
        ∧ (finalizeRow p).commission_amount = 0
        ∧ (finalizeRow p).shipping_fee = 0
        ∧ (finalizeRow p).processing_fee = 0
        ∧ (finalizeRow p).platform_dev_revenue = 0
        ∧ (finalizeRow p).tax_amount = 0 := by
  intro evs k hcost p hp
  have hsale : p.sale_amount = 0 :=
    sale_amount_zero_of_cost_only k evs [] hcost
      (fun q hq => by rw [findRow_nil] at hq; cases hq) p hp
  have hfin := finalizeRow_nonpos p (le_of_eq hsale)
  rw [hfin]
  exact ⟨hsale, rfl, rfl, rfl, rfl, rfl, rfl, rfl⟩

/-- C10 witness: the theorem applied to a single concrete commission event
of 50 on a fresh identity; the finalized stored line is a return with all
monetary fields 0. -/
theorem cost_only_identity_witness :
    (⟨SaleType.cash, "1", "D", "", 0, false, 50, 0, 0, 0⟩ : ParsedRow).sale_amount = 0
    ∧ (finalizeRow ⟨SaleType.cash, "1", "D", "", 0, false, 50, 0, 0, 0⟩).is_return = true
    ∧ (finalizeRow ⟨SaleType.cash, "1", "D", "", 0, false, 50, 0, 0, 0⟩).sale_amount = 0
    ∧ (finalizeRow ⟨SaleType.cash, "1", "D", "", 0, false, 50, 0, 0, 0⟩).commission_amount = 0
    ∧ (finalizeRow ⟨SaleType.cash, "1", "D", "", 0, false, 50, 0, 0, 0⟩).shipping_fee = 0
    ∧ (finalizeRow ⟨SaleType.cash, "1", "D", "", 0, false, 50, 0, 0, 0⟩).processing_fee = 0
    ∧ (finalizeRow ⟨SaleType.cash, "1", "D", "", 0, false, 50, 0, 0, 0⟩).platform_dev_revenue = 0
    ∧ (finalizeRow ⟨SaleType.cash, "1", "D", "", 0, false, 50, 0, 0, 0⟩).tax_amount = 0 :=
  cost_only_identity_stored_as_zero_return
    [⟨SaleType.cash, SheetKind.cost CostKind.commission false,
      ⟨some "1", some "D", none, Cell.num 50⟩⟩]
    (SaleType.cash, "1", "D")
    (by
      intro e he hk
      rw [List.mem_singleton] at he
      subst he
      exact ⟨CostKind.commission, false, rfl⟩)
    ⟨SaleType.cash, "1", "D", "", 0, false, 50, 0, 0, 0⟩
    (by decide)

/-- C5 counterexample: one cash sale of 1000 and one cash return of 300 for
the same identity.  In the code's order (sale sheet before return sheet)
the finalized stored line is a non-return with sale_amount 700; with the
two sheets permuted, the return sheet creates the line with is_return set,
so the finalized stored line is a return with every monetary field 0 — the
finalized stored line set depends on the processing order. -/
theorem finalized_lines_depend_on_sheet_order :
    process_invoice_rows (parse_invoice_excel
      [⟨SaleType.cash, SheetKind.sales false,
        [⟨some "1", some "D", some "A", Cell.num 1000⟩]⟩,
       ⟨SaleType.cash, SheetKind.sales true,
        [⟨some "1", some "D", some "A", Cell.num 300⟩]⟩])
      = [⟨SaleType.cash, "1", "D", "A", 700, 0, 0, 0, 0, 0, 0, 0, false⟩]
    ∧ process_invoice_rows (parse_invoice_excel
      [⟨SaleType.cash, SheetKind.sales true,
        [⟨some "1", some "D", some "A", Cell.num 300⟩]⟩,
       ⟨SaleType.cash, SheetKind.sales false,
        [⟨some "1", some "D", some "A", Cell.num 1000⟩]⟩])
      = [⟨SaleType.cash, "1", "D", "A", 0, 0, 0, 0, 0, 0, 0, 0, true⟩] := by
  refine ⟨by decide, by decide⟩

/-- C5 (amended): for every workbook and every permutation of its sheets,
each identity accumulates the same five numeric fields (sale_amount,
commission_amount, shipping_fee, processing_fee, platform_dev_revenue) —
per-field accumulation is commutative; but the is_return flag and title are
fixed by whichever contribution first creates a line, so the finalized
stored line set is not order-independent (see the counterexample). -/
theorem numeric_fields_perm_invariant :
    ∀ (sheets1 sheets2 : List Sheet), sheets1.Perm sheets2 →
      ∀ k : Key,
        numAt (parse_invoice_excel sheets1) k = numAt (parse_invoice_excel sheets2) k := by
  intro sheets1 sheets2 hperm k
  rw [numAt_parse, numAt_parse]
  exact ((hperm.map _).sum_eq)

/-- C5 witness: the theorem applied to the two concrete sheet orders of the
counterexample scenario, which are a transposition of each other. -/
theorem numeric_fields_perm_invariant_witness :
    numAt (parse_invoice_excel
      [⟨SaleType.cash, SheetKind.sales false,
        [⟨some "1", some "D", some "A", Cell.num 1000⟩]⟩,
       ⟨SaleType.cash, SheetKind.sales true,
        [⟨some "1", some "D", some "A", Cell.num 300⟩]⟩]) (SaleType.cash, "1", "D")
    = numAt (parse_invoice_excel
      [⟨SaleType.cash, SheetKind.sales true,
        [⟨some "1", some "D", some "A", Cell.num 300⟩]⟩,
       ⟨SaleType.cash, SheetKind.sales false,
        [⟨some "1", some "D", some "A", Cell.num 1000⟩]⟩]) (SaleType.cash, "1", "D") :=
  numeric_fields_perm_invariant
    [⟨SaleType.cash, SheetKind.sales false,
      [⟨some "1", some "D", some "A", Cell.num 1000⟩]⟩,
     ⟨SaleType.cash, SheetKind.sales true,
      [⟨some "1", some "D", some "A", Cell.num 300⟩]⟩]
    [⟨SaleType.cash, SheetKind.sales true,
      [⟨some "1", some "D", some "A", Cell.num 300⟩]⟩,
     ⟨SaleType.cash, SheetKind.sales false,
      [⟨some "1", some "D", some "A", Cell.num 1000⟩]⟩]
    (List.Perm.swap _ _ [])
    (SaleType.cash, "1", "D")

end DigiHesabyar
